import Mathlib

/-!
Shallow embedding of the offline-first sync core of TaskTrackerPro
(client/src/lib/expenseStore.ts, client/src/lib/syncService.ts,
client/src/components/ExpenseModal.tsx, client/src/components/TripModal.tsx).

Modelling conventions:
* Monetary amounts entered in the form are decimal strings in the source
  (inputs of type number with step 0.01); an empty input parses to 0 via
  `parseFloat(x) || 0`.  They are modelled as `Option ℚ` (none = empty input).
* Values produced by `toFixed(2)` are strings with exactly two decimals; they
  are modelled as an integer number of cents (`ℤ`).
* Dates are modelled as integers (epoch milliseconds / day numbers); only
  their ordering and equality matter to the claims.
* IndexedDB object stores are modelled as association lists together with the
  auto-increment key generator (`nextKey`).  Per the IndexedDB specification,
  storing a record with an explicit key bumps the generator past that key, and
  `add` fails when the key is already present.
* Asynchronous operations are sequential in the source (every store and
  network call is awaited), so each flow is a pure state transformer; fallible
  steps return `Except`.  The attempted side effects of a flow are recorded in
  an event trace so that ordering claims ("remote first", "no write
  attempted") are expressible.
-/

namespace TaskTrackerPro

/-! ## Monetary rounding (ExpenseModal.tsx)

`toFixed(2)` of a nonnegative amount rounds to the nearest cent, half away
from zero.  `centsOf q` is the integer number of cents of the rounded value. -/

def centsOf (q : ℚ) : ℤ := Int.floor (q * 100 + 1 / 2)

/-- `MILEAGE_RATE = 1.09` (ExpenseModal.tsx line 41). -/
def MILEAGE_RATE : ℚ := 109 / 100

/-- `parseFloat(x) || 0`: an absent/empty sub-amount is treated as 0. -/
def parseOr0 : Option ℚ → ℚ
  | none => 0
  | some q => q

/-- The state of the expense form that feeds the reactive total computation.
The six sub-amount inputs have step 0.01 (at most two decimals); the mileage
input has step 1 and min 0, so a browser-valid value is a natural number of
kilometres (empty = none). -/
structure ExpenseForm where
  breakfastValue : Option ℚ
  lunchValue : Option ℚ
  dinnerValue : Option ℚ
  transportValue : Option ℚ
  parkingValue : Option ℚ
  otherValue : Option ℚ
  mileage : Option ℕ
deriving Repr, DecidableEq

/-- The `useEffect` on `[mileage]`: `((parseFloat(mileage) || 0) * MILEAGE_RATE).toFixed(2)`,
in cents. -/
def formMileageValueCents (f : ExpenseForm) : ℤ :=
  centsOf ((f.mileage.getD 0 : ℕ) * MILEAGE_RATE)

/-- The `useEffect` computing the total: the sum of the six parsed sub-amounts
plus the parsed (already rounded) mileage value, then `toFixed(2)`, in cents. -/
def formTotalValueCents (f : ExpenseForm) : ℤ :=
  centsOf (parseOr0 f.breakfastValue + parseOr0 f.lunchValue +
    parseOr0 f.dinnerValue + parseOr0 f.transportValue +
    parseOr0 f.parkingValue + (formMileageValueCents f : ℚ) / 100 +
    parseOr0 f.otherValue)

/-- The mileage quantity stored on submit: `mileage ? parseInt(mileage) : 0`. -/
def submittedMileage (f : ExpenseForm) : ℕ := f.mileage.getD 0

lemma centsOf_int_div_100 (n : ℤ) : centsOf ((n : ℚ) / 100) = n := by
  unfold centsOf
  have h : ((n : ℚ) / 100) * 100 + 1 / 2 = (n : ℚ) + 1 / 2 := by ring
  rw [h]
  rw [Int.floor_int_add]
  norm_num

lemma formMileageValueCents_eq (f : ExpenseForm) :
    formMileageValueCents f = 109 * (submittedMileage f : ℤ) := by
  unfold formMileageValueCents submittedMileage centsOf MILEAGE_RATE
  have h : ((f.mileage.getD 0 : ℕ) : ℚ) * (109 / 100) * 100 + 1 / 2 =
      ((109 * (f.mileage.getD 0 : ℕ) : ℤ) : ℚ) + 1 / 2 := by
    push_cast
    ring
  rw [h, Int.floor_int_add]
  norm_num

/-! ## IndexedDB object stores

An object store with an in-line key path and an auto-increment key generator.
`records` is the list of (key, value) pairs, `nextKey` the generator state.
Per the IndexedDB specification the generator starts at 1, `add`/`put` with an
explicit key bump the generator past that key, and `add` fails with a
ConstraintError when a record with the same key already exists. -/
structure ObjStore (α : Type) where
  records : List (ℕ × α)
  nextKey : ℕ
deriving Repr, DecidableEq

namespace ObjStore

/-- `store.get(k)` on the raw record list: the record stored under key `k`. -/
def lookupKey {α : Type} (l : List (ℕ × α)) (k : ℕ) : Option α :=
  match l with
  | [] => none
  | (k2, v) :: t => if k2 = k then some v else lookupKey t k

/-- Whether a record with key `k` exists. -/
def hasKey {α : Type} (l : List (ℕ × α)) (k : ℕ) : Bool :=
  (lookupKey l k).isSome

/-- `store.delete(k)`: removes the record(s) stored under key `k`. -/
def eraseKey {α : Type} (l : List (ℕ × α)) (k : ℕ) : List (ℕ × α) :=
  l.filter (fun p => p.1 ≠ k)

/-- Replace the value stored under key `k`, or append a fresh record. -/
def putList {α : Type} (l : List (ℕ × α)) (k : ℕ) (v : α) : List (ℕ × α) :=
  match l with
  | [] => [(k, v)]
  | (k2, v2) :: t => if k2 = k then (k, v) :: t else (k2, v2) :: putList t k v

/-- `store.put(record)` with an explicit key `k`: replace-or-insert, bumping
the key generator past `k`. -/
def put {α : Type} (s : ObjStore α) (k : ℕ) (v : α) : ObjStore α :=
  { records := putList s.records k v, nextKey := max s.nextKey (k + 1) }

/-- `store.add(record)` with an explicit key `k`: fails when the key is taken,
otherwise inserts and bumps the key generator past `k`. -/
def addWith {α : Type} (s : ObjStore α) (k : ℕ) (v : α) :
    Except Unit (ObjStore α) :=
  if hasKey s.records k then Except.error ()
  else Except.ok { records := s.records ++ [(k, v)], nextKey := max s.nextKey (k + 1) }

/-- `store.add(record)` with no key: the generator assigns `nextKey` and the
key is injected into the stored value at the key path (`mkv`). -/
def addAuto {α : Type} (s : ObjStore α) (mkv : ℕ → α) :
    Except Unit (ObjStore α × ℕ) :=
  if hasKey s.records s.nextKey then Except.error ()
  else Except.ok
    ({ records := s.records ++ [(s.nextKey, mkv s.nextKey)], nextKey := s.nextKey + 1 },
     s.nextKey)

/-- An empty store as created by `createObjectStore` (generator starts at 1). -/
def empty {α : Type} : ObjStore α := { records := [], nextKey := 1 }

/-- Reachable store states: every key is below the generator.  This holds for
every store built by the operations above from `empty`. -/
def WF {α : Type} (s : ObjStore α) : Prop :=
  ∀ k ∈ s.records.map Prod.fst, k < s.nextKey

instance {α : Type} (s : ObjStore α) : Decidable (WF s) := by
  unfold WF
  infer_instance

lemma lookupKey_append_self {α : Type} (l : List (ℕ × α)) (k : ℕ) (v : α)
    (h : lookupKey l k = none) : lookupKey (l ++ [(k, v)]) k = some v := by
  induction l with
  | nil => simp [lookupKey]
  | cons p t ih =>
    obtain ⟨k2, v2⟩ := p
    simp only [List.cons_append, lookupKey] at h ⊢
    by_cases hk : k2 = k
    · simp [hk] at h
    · simp only [hk, if_false] at h ⊢
      exact ih h

lemma lookupKey_append_ne {α : Type} (l : List (ℕ × α)) (k k2 : ℕ) (v : α)
    (h : k2 ≠ k) : lookupKey (l ++ [(k2, v)]) k = lookupKey l k := by
  induction l with
  | nil => simp [lookupKey, h]
  | cons p t ih =>
    obtain ⟨k3, v3⟩ := p
    by_cases hk : k3 = k
    · simp [lookupKey, hk]
    · simp only [List.cons_append, lookupKey, hk, if_false]
      exact ih

lemma lookupKey_putList_ne {α : Type} (l : List (ℕ × α)) (k k2 : ℕ) (v : α)
    (h : k2 ≠ k) : lookupKey (putList l k2 v) k = lookupKey l k := by
  induction l with
  | nil => simp [putList, lookupKey, h]
  | cons p t ih =>
    obtain ⟨k3, v3⟩ := p
    by_cases hk : k3 = k2
    · subst hk
      simp only [putList, if_pos rfl]
      simp only [lookupKey]
      simp [h]
    · simp only [putList, hk, if_false]
      simp only [lookupKey]
      by_cases hk3 : k3 = k
      · simp [hk3]
      · simp only [hk3, if_false]
        exact ih

lemma lookupKey_isSome_putList {α : Type} (l : List (ℕ × α)) (k k2 : ℕ) (v : α)
    (h : (lookupKey l k).isSome) : (lookupKey (putList l k2 v) k).isSome := by
  by_cases hk : k2 = k
  · subst hk
    induction l with
    | nil => simp [lookupKey] at h
    | cons p t ih =>
      obtain ⟨k3, v3⟩ := p
      by_cases hk3 : k3 = k2
      · subst hk3
        simp [putList, lookupKey]
      · simp only [putList, hk3, if_false]
        rw [lookupKey] at h ⊢
        simp only [hk3, if_false] at h ⊢
        exact ih h
  · rw [lookupKey_putList_ne l k k2 v hk]
    exact h

end ObjStore

/-! ## Records (expenseStore.ts data shapes) -/

/-- A trip record as stored in the `trips` object store (`TripData`). -/
structure TripRec where
  id : ℕ
  name : String
  startDate : Option ℤ
  endDate : Option ℤ
  cpf : Option String
  createdAt : ℤ
deriving Repr, DecidableEq

/-- `Omit(TripData, id | createdAt)`: the argument of `saveTrip`/`updateTrip`
as built by TripModal (`name`, `startDate`, `endDate`, `cpf`). -/
structure TripInput where
  name : String
  startDate : Option ℤ
  endDate : Option ℤ
  cpf : Option String
deriving Repr, DecidableEq

/-- An expense record as stored in the `expenses` object store (`ExpenseData`).
Sub-amounts are the raw decimal strings typed in the form (`Option ℚ`);
`mileageValue`, `totalValue` and the legacy `mealValue` are `toFixed(2)`
strings, carried as cents. -/
structure ExpenseRec where
  id : ℕ
  tripId : ℕ
  date : ℤ
  destination : String
  justification : String
  breakfastValue : Option ℚ
  lunchValue : Option ℚ
  dinnerValue : Option ℚ
  transportValue : Option ℚ
  parkingValue : Option ℚ
  mileage : ℕ
  mileageValue : ℤ
  otherValue : Option ℚ
  otherDescription : String
  receipt : String
  totalValue : ℤ
  mealValue : ℤ
  updatedAt : ℤ
  createdAt : ℤ
deriving Repr, DecidableEq

/-- `Omit(ExpenseData, id | createdAt)`: the argument of `saveExpense` as
built by ExpenseModal's `handleSubmit`. -/
structure ExpenseInput where
  tripId : ℕ
  date : ℤ
  destination : String
  justification : String
  breakfastValue : Option ℚ
  lunchValue : Option ℚ
  dinnerValue : Option ℚ
  transportValue : Option ℚ
  parkingValue : Option ℚ
  mileage : ℕ
  mileageValue : ℤ
  otherValue : Option ℚ
  otherDescription : String
  receipt : String
  totalValue : ℤ
  mealValue : ℤ
  updatedAt : ℤ
deriving Repr, DecidableEq

/-- The local IndexedDB database `ExpenseTrackerDB` (the `cpf` singleton store
plays no part in the claims and is omitted). -/
structure LocalDB where
  trips : ObjStore TripRec
  expenses : ObjStore ExpenseRec
deriving Repr, DecidableEq

/-- The freshly (re)created database: empty stores, generators at 1. -/
def emptyDB : LocalDB := { trips := ObjStore.empty, expenses := ObjStore.empty }

/-- Attempted side effects of a flow, in program order.  A remote call is
recorded when the request is issued; a local event when the store operation is
requested, whether or not it succeeds. -/
inductive Ev where
  | localAdd (storeName : String)
  | localPut (storeName : String)
  | localDelete (storeName : String)
  | remoteCall (method : String) (path : String)
deriving Repr, DecidableEq

inductive StoreErr where
  | constraint
  | recordNotFound
deriving Repr, DecidableEq

/-- Outcome of a dual-write operation: final database, attempted side effects
in order, and the settled value of the returned promise. -/
structure SaveResult (β : Type) where
  db : LocalDB
  events : List Ev
  result : Except StoreErr β

/-! ## SyncEngine operations (expenseStore.ts, second revision) -/

/-- `getTrip` (expenseStore.ts lines 1134-1145): `resolve(request.result || null)`;
a missing key resolves with null, it does not reject. -/
def getTrip (db : LocalDB) (id : ℕ) : Except StoreErr (Option TripRec) :=
  Except.ok (ObjStore.lookupKey db.trips.records id)

/-- `getExpense` (expenseStore.ts lines 1325-1336): same shape as `getTrip`. -/
def getExpense (db : LocalDB) (id : ℕ) : Except StoreErr (Option ExpenseRec) :=
  Except.ok (ObjStore.lookupKey db.expenses.records id)

/-- The record stored by `saveExpense`: the input plus `createdAt := now`,
with the generated key injected at the `id` key path. -/
def mkExpenseRec (e : ExpenseInput) (now : ℤ) (k : ℕ) : ExpenseRec :=
  { id := k, tripId := e.tripId, date := e.date, destination := e.destination,
    justification := e.justification, breakfastValue := e.breakfastValue,
    lunchValue := e.lunchValue, dinnerValue := e.dinnerValue,
    transportValue := e.transportValue, parkingValue := e.parkingValue,
    mileage := e.mileage, mileageValue := e.mileageValue,
    otherValue := e.otherValue, otherDescription := e.otherDescription,
    receipt := e.receipt, totalValue := e.totalValue, mealValue := e.mealValue,
    updatedAt := e.updatedAt, createdAt := now }

/-- `saveExpense` (expenseStore.ts lines 1267-1283): purely local — one `add`
on the `expenses` store with an auto-assigned key; no remote request. -/
def saveExpense (now : ℤ) (e : ExpenseInput) (db : LocalDB) : SaveResult ℕ :=
  match ObjStore.addAuto db.expenses (mkExpenseRec e now) with
  | Except.error _ =>
      { db := db, events := [Ev.localAdd "expenses"], result := Except.error StoreErr.constraint }
  | Except.ok (st, k) =>
      { db := { db with expenses := st }, events := [Ev.localAdd "expenses"],
        result := Except.ok k }

/-- The server's reply to a successful `POST /api/trips`. -/
structure RemoteTripResp where
  id : ℕ
  createdAt : ℤ
deriving Repr, DecidableEq

def mkTripRec (t : TripInput) (id : ℕ) (createdAt : ℤ) : TripRec :=
  { id := id, name := t.name, startDate := t.startDate, endDate := t.endDate,
    cpf := t.cpf, createdAt := createdAt }

/-- `saveTrip` (expenseStore.ts lines 911-1007).  `remote = some resp` models
a successful `POST /api/trips`; `none` models any remote failure (non-ok
status or network error).  On remote success the server id and timestamps are
used for the local `add`, and a local add error is swallowed
(`request.onerror` resolves the server id anyway).  On remote failure the
trip captured at entry (`createdAt := now`) is added with an auto key. -/
def saveTrip (remote : Option RemoteTripResp) (now : ℤ) (t : TripInput)
    (db : LocalDB) : SaveResult ℕ :=
  let remoteEv := Ev.remoteCall "POST" "/api/trips"
  match remote with
  | some resp =>
      match ObjStore.addWith db.trips resp.id (mkTripRec t resp.id resp.createdAt) with
      | Except.error _ =>
          { db := db, events := [remoteEv, Ev.localAdd "trips"],
            result := Except.ok resp.id }
      | Except.ok st =>
          { db := { db with trips := st }, events := [remoteEv, Ev.localAdd "trips"],
            result := Except.ok resp.id }
  | none =>
      match ObjStore.addAuto db.trips (fun k => mkTripRec t k now) with
      | Except.error _ =>
          { db := db, events := [remoteEv, Ev.localAdd "trips"],
            result := Except.error StoreErr.constraint }
      | Except.ok (st, k) =>
          { db := { db with trips := st }, events := [remoteEv, Ev.localAdd "trips"],
            result := Except.ok k }

/-- The spread `{ ...existingTrip, ...trip }` for the full input TripModal
passes: the four input fields overwrite, `id` and `createdAt` survive. -/
def mergeTrip (old : TripRec) (t : TripInput) : TripRec :=
  { old with
    name := t.name
    startDate := t.startDate
    endDate := t.endDate
    cpf := t.cpf }

/-- `updateTrip` (expenseStore.ts lines 1009-1084).  `remoteOk = true`: the
`PUT` succeeded; a missing local record resolves with no write, a present one
is merged and `put` back.  `remoteOk = false`: any remote failure falls back
to the local-only update, which rejects with "Trip not found" when the record
is missing. -/
def updateTrip (remoteOk : Bool) (id : ℕ) (t : TripInput) (db : LocalDB) :
    SaveResult Unit :=
  let remoteEv := Ev.remoteCall "PUT" ("/api/trips/" ++ toString id)
  if remoteOk then
    match ObjStore.lookupKey db.trips.records id with
    | none => { db := db, events := [remoteEv], result := Except.ok () }
    | some old =>
        let merged := mergeTrip old t
        { db := { db with trips := ObjStore.put db.trips merged.id merged },
          events := [remoteEv, Ev.localPut "trips"], result := Except.ok () }
  else
    match ObjStore.lookupKey db.trips.records id with
    | none =>
        { db := db, events := [remoteEv],
          result := Except.error StoreErr.recordNotFound }
    | some old =>
        let merged := mergeTrip old t
        { db := { db with trips := ObjStore.put db.trips merged.id merged },
          events := [remoteEv, Ev.localPut "trips"], result := Except.ok () }

/-- The primary keys of the expenses whose `tripId` index value is `tripId`
(the cursor range of `deleteLocalTrip`). -/
def matchingExpenseKeys (l : List (ℕ × ExpenseRec)) (tripId : ℕ) : List ℕ :=
  (l.filter (fun p => p.2.tripId = tripId)).map Prod.fst

/-- `deleteLocalTrip` (expenseStore.ts lines 1105-1132): one readwrite
transaction over both stores; a cursor over the `tripId` index deletes every
matching expense by primary key, then the trip row is deleted. -/
def deleteLocalTrip (id : ℕ) (db : LocalDB) : LocalDB :=
  let ks := matchingExpenseKeys db.expenses.records id
  let exps := ks.foldl (fun l k => ObjStore.eraseKey l k) db.expenses.records
  { trips := { db.trips with records := ObjStore.eraseKey db.trips.records id },
    expenses := { db.expenses with records := exps } }

/-- `deleteTrip` (expenseStore.ts lines 1086-1102): attempts the remote
delete; both the success branch and the fallback invoke `deleteLocalTrip`. -/
def deleteTrip (remoteOk : Bool) (id : ℕ) (db : LocalDB) : LocalDB :=
  if remoteOk then deleteLocalTrip id db else deleteLocalTrip id db

/-! ## ExpenseModal create flow (ExpenseModal.tsx lines 247-282) -/

structure ExpenseFlowResult where
  db : LocalDB
  events : List Ev
  result : Except StoreErr ℕ
  synced : Bool

/-- The create branch of ExpenseModal's `handleSubmit`: first
`saveExpense(expenseData)` (a purely local add yielding `localId`), then
`syncExpenseToServer` posts to `/api/trips/(tripId)/expenses` stripping the
id; its boolean outcome only selects a toast.  `remoteAssigned = some rid`
models a successful remote create that assigned id `rid`; the reply is parsed
but never written locally and never returned.  When `saveExpense` rejects the
catch shows a toast and no remote call is made. -/
def createExpenseFlow (remoteAssigned : Option ℕ) (now : ℤ) (e : ExpenseInput)
    (db : LocalDB) : ExpenseFlowResult :=
  let r := saveExpense now e db
  match r.result with
  | Except.error err =>
      { db := r.db, events := r.events, result := Except.error err, synced := false }
  | Except.ok localId =>
      let remoteEv := Ev.remoteCall "POST" ("/api/trips/" ++ toString e.tripId ++ "/expenses")
      { db := r.db, events := r.events ++ [remoteEv], result := Except.ok localId,
        synced := remoteAssigned.isSome }

/-! ## TripModal submit pipeline (TripModal.tsx) -/

/-- The trip form state: name, optional start date, optional end date. -/
structure TripForm where
  name : String
  startDate : Option ℤ
  endDate : Option ℤ
deriving Repr, DecidableEq

/-- Browser constraint validation of the rendered form, per the HTML standard:
the name input carries `required` (empty value blocks submission) and the
end-date input carries `min = startDate` (TripModal.tsx lines 138-147), so an
end date strictly below a present start date suffers rangeUnderflow and the
submit event never fires. -/
def tripFormBlocked (f : TripForm) : Bool :=
  (f.name = "") ||
    (match f.startDate, f.endDate with
     | some s, some e => decide (e < s)
     | _, _ => false)

inductive SubmitOutcome where
  | blocked
  | invalidName
  | created (r : Except StoreErr ℕ)
  | updated (r : Except StoreErr Unit)
deriving Repr

/-- TripModal's `handleSubmit` (lines 59-107) behind the browser's form
validation gate.  `editing = some tid` is the edit branch (`trip.id = tid`);
`none` is the create branch.  The handler re-checks `name.trim()`, reads the
identity (`cpf`, passed here as a parameter), builds `tripData` and calls
`updateTrip`/`saveTrip`. -/
def tripModalSubmit (editing : Option ℕ) (remoteCreate : Option RemoteTripResp)
    (remoteUpdateOk : Bool) (cpf : Option String) (now : ℤ) (f : TripForm)
    (db : LocalDB) : LocalDB × List Ev × SubmitOutcome :=
  if tripFormBlocked f then (db, [], SubmitOutcome.blocked)
  else if f.name.trim = "" then (db, [], SubmitOutcome.invalidName)
  else
    let inp : TripInput :=
      { name := f.name, startDate := f.startDate, endDate := f.endDate, cpf := cpf }
    match editing with
    | some tid =>
        let r := updateTrip remoteUpdateOk tid inp db
        (r.db, r.events, SubmitOutcome.updated r.result)
    | none =>
        let r := saveTrip remoteCreate now inp db
        (r.db, r.events, SubmitOutcome.created r.result)

/-! ## ReconciliationService (syncService.ts) -/

/-- A trip as served by `GET /api/trips/by-cpf/(cpf)` after JSON parsing;
`createdAt` may be absent on the wire (the client substitutes `new Date()`). -/
structure RemoteTrip where
  id : ℕ
  name : String
  startDate : Option ℤ
  endDate : Option ℤ
  cpf : Option String
  createdAt : Option ℤ
deriving Repr, DecidableEq

/-- An expense as served by `GET /api/expenses/by-trip/(tripId)`. -/
structure RemoteExpense where
  id : ℕ
  tripId : ℕ
  date : ℤ
  destination : String
  justification : String
  breakfastValue : Option ℚ
  lunchValue : Option ℚ
  dinnerValue : Option ℚ
  transportValue : Option ℚ
  parkingValue : Option ℚ
  mileage : ℕ
  mileageValue : ℤ
  otherValue : Option ℚ
  otherDescription : String
  receipt : String
  totalValue : ℤ
  mealValue : ℤ
  updatedAt : ℤ
  createdAt : Option ℤ
deriving Repr, DecidableEq

/-- Date revival applied to a fetched trip:
`createdAt: trip.createdAt ? new Date(trip.createdAt) : new Date()`. -/
def remoteTripToLocal (now : ℤ) (t : RemoteTrip) : TripRec :=
  { id := t.id, name := t.name, startDate := t.startDate, endDate := t.endDate,
    cpf := t.cpf, createdAt := t.createdAt.getD now }

/-- Date revival applied to a fetched expense
(`createdAt: new Date(expense.createdAt || new Date())`). -/
def remoteExpenseToLocal (now : ℤ) (e : RemoteExpense) : ExpenseRec :=
  { id := e.id, tripId := e.tripId, date := e.date, destination := e.destination,
    justification := e.justification, breakfastValue := e.breakfastValue,
    lunchValue := e.lunchValue, dinnerValue := e.dinnerValue,
    transportValue := e.transportValue, parkingValue := e.parkingValue,
    mileage := e.mileage, mileageValue := e.mileageValue,
    otherValue := e.otherValue, otherDescription := e.otherDescription,
    receipt := e.receipt, totalValue := e.totalValue, mealValue := e.mealValue,
    updatedAt := e.updatedAt, createdAt := e.createdAt.getD now }

/-- `syncTripsFromServer` (syncService.ts lines 12-101): light reconciliation.
`fetched = none` models a failed fetch (the function returns false and the
store is untouched).  On success, for each server trip with a truthy id the
loop does get-then-put (record present) or get-then-add (record absent).
Despite the "limpa qualquer viagem existente" comment, the pre-existing trips
for the identity are only read, never deleted.  `syncTripStep` is one loop
iteration: skip a falsy id, otherwise get-then-put or get-then-add. -/
def syncTripStep (now : ℤ) (st : ObjStore TripRec) (t : RemoteTrip) :
    ObjStore TripRec :=
  if t.id = 0 then st
  else
    match ObjStore.lookupKey st.records t.id with
    | some _ => ObjStore.put st t.id (remoteTripToLocal now t)
    | none =>
        match ObjStore.addWith st t.id (remoteTripToLocal now t) with
        | Except.ok st2 => st2
        | Except.error _ => st

def syncTripsFromServer (fetched : Option (List RemoteTrip)) (now : ℤ)
    (db : LocalDB) : Bool × LocalDB :=
  match fetched with
  | none => (false, db)
  | some trips =>
      (true, { db with trips := trips.foldl (syncTripStep now) db.trips })

/-- `clearLocalDatabase` (syncService.ts lines 104-171): delete the database
and recreate its empty stores. -/
def clearLocalDatabase : LocalDB := emptyDB

/-- The remote data set `verifyAndFixDatabase` reconciles against:
the trips of the identity, and per trip the outcome and body of the expense
fetch.  `tripsOk = false` models a failed trip fetch. -/
structure RemoteState where
  tripsOk : Bool
  trips : List RemoteTrip
  expensesOk : ℕ → Bool
  expensesOf : ℕ → List RemoteExpense

/-- Reinsert the fetched expenses of one trip; an add failure is caught
per-expense and that expense is skipped. -/
def insertExpenseStep (now : ℤ) (st : ObjStore ExpenseRec)
    (e : RemoteExpense) : ObjStore ExpenseRec :=
  match ObjStore.addWith st e.id (remoteExpenseToLocal now e) with
  | Except.ok st2 => st2
  | Except.error _ => st

def insertRemoteExpenses (now : ℤ) (st : ObjStore ExpenseRec)
    (l : List RemoteExpense) : ObjStore ExpenseRec :=
  l.foldl (insertExpenseStep now) st

/-- One iteration of the `verifyAndFixDatabase` trip loop: add the trip
(an add failure is caught per-trip, skipping the trip and its expense fetch),
then fetch and reinsert its expenses when that fetch succeeds. -/
def processServerTrip (r : RemoteState) (now : ℤ) (db : LocalDB)
    (t : RemoteTrip) : LocalDB :=
  match ObjStore.addWith db.trips t.id (remoteTripToLocal now t) with
  | Except.error _ => db
  | Except.ok store2 =>
      let db2 := { db with trips := store2 }
      if r.expensesOk t.id then
        { db2 with expenses := insertRemoteExpenses now db2.expenses (r.expensesOf t.id) }
      else db2

/-- `verifyAndFixDatabase` (syncService.ts lines 268-402): fetch the remote
trips (failure aborts, local store untouched), wipe the local database via
`clearLocalDatabase`, then reinsert every remote trip and its expenses. -/
def verifyAndFixDatabase (r : RemoteState) (now : ℤ) (db : LocalDB) :
    Bool × LocalDB :=
  if r.tripsOk then
    (true, r.trips.foldl (processServerTrip r now) clearLocalDatabase)
  else (false, db)

/-- The `expenseData` object assembled by ExpenseModal's `handleSubmit` from
the form state: sub-amount strings are stored raw, `mileage` is the parsed
integer, `mileageValue` and `totalValue` are the reactive `toFixed(2)` states,
`mealValue` is the legacy meal total. -/
def submittedExpenseInput (tripId : ℕ) (dt : ℤ) (dest just odesc rcpt : String)
    (now : ℤ) (f : ExpenseForm) : ExpenseInput :=
  { tripId := tripId, date := dt, destination := dest, justification := just,
    breakfastValue := f.breakfastValue, lunchValue := f.lunchValue,
    dinnerValue := f.dinnerValue, transportValue := f.transportValue,
    parkingValue := f.parkingValue, mileage := submittedMileage f,
    mileageValue := formMileageValueCents f, otherValue := f.otherValue,
    otherDescription := odesc, receipt := rcpt,
    totalValue := formTotalValueCents f,
    mealValue := centsOf (parseOr0 f.breakfastValue + parseOr0 f.lunchValue +
      parseOr0 f.dinnerValue),
    updatedAt := now }

/-- The number of expenses in the local store whose `tripId` equals `id`. -/
def countTripExpenses (db : LocalDB) (id : ℕ) : ℕ :=
  (db.expenses.records.filter (fun p => p.2.tripId = id)).length

/-- A concrete expense-form submission used to evaluate the create flow. -/
def sampleExpenseInput : ExpenseInput :=
  { tripId := 1, date := 0, destination := "d", justification := "j",
    breakfastValue := none, lunchValue := none, dinnerValue := none,
    transportValue := none, parkingValue := none, mileage := 0,
    mileageValue := 0, otherValue := none, otherDescription := "",
    receipt := "r", totalValue := 0, mealValue := 0, updatedAt := 0 }

/-- A concrete remote expense used to evaluate full reconciliation. -/
def sampleRemoteExpense : RemoteExpense :=
  { id := 7, tripId := 1, date := 0, destination := "d", justification := "j",
    breakfastValue := none, lunchValue := none, dinnerValue := none,
    transportValue := none, parkingValue := none, mileage := 0,
    mileageValue := 0, otherValue := none, otherDescription := "",
    receipt := "r", totalValue := 0, mealValue := 0, updatedAt := 0,
    createdAt := some 3 }

/-- A concrete remote data set (one trip owning one expense, timestamps
present) used to evaluate full reconciliation. -/
def sampleRemoteState : RemoteState :=
  { tripsOk := true,
    trips := [⟨1, "n", none, none, none, some 2⟩],
    expensesOk := fun _ => true,
    expensesOf := fun _ => [sampleRemoteExpense] }

/-! ## Claims -/

/-- Claim C1: for every expense saved through the expense form, the stored
`totalValue` equals the 2-decimal-rounded sum
breakfast + lunch + dinner + transport + parking + other + mileage * 1.09
(absent or empty sub-amounts treated as 0), and the stored `mileageValue`
equals mileage * 1.09 rounded to 2 decimals; mileage = 0 yields 0.00 and
mileage = 100 yields 109.00 (amounts carried as cents). -/
theorem C1_expense_total_invariant :
    (∀ (tripId : ℕ) (dt : ℤ) (dest just odesc rcpt : String) (now now2 : ℤ)
      (k : ℕ) (f : ExpenseForm),
      (mkExpenseRec (submittedExpenseInput tripId dt dest just odesc rcpt now f) now2 k).totalValue
          = centsOf (parseOr0 f.breakfastValue + parseOr0 f.lunchValue +
              parseOr0 f.dinnerValue + parseOr0 f.transportValue +
              parseOr0 f.parkingValue + parseOr0 f.otherValue +
              (submittedMileage f : ℚ) * MILEAGE_RATE) ∧
      (mkExpenseRec (submittedExpenseInput tripId dt dest just odesc rcpt now f) now2 k).mileageValue
          = centsOf ((submittedMileage f : ℚ) * MILEAGE_RATE)) ∧
    formMileageValueCents
      { breakfastValue := none, lunchValue := none, dinnerValue := none,
        transportValue := none, parkingValue := none, otherValue := none,
        mileage := some 0 } = 0 ∧
    formMileageValueCents
      { breakfastValue := none, lunchValue := none, dinnerValue := none,
        transportValue := none, parkingValue := none, otherValue := none,
        mileage := some 100 } = 10900 := by
  refine ⟨fun tripId dt dest just odesc rcpt now now2 k f => ⟨?_, ?_⟩, ?_, ?_⟩
  · show formTotalValueCents f = _
    unfold formTotalValueCents
    rw [formMileageValueCents_eq f]
    congr 1
    unfold MILEAGE_RATE
    push_cast
    ring
  · rfl
  · rw [formMileageValueCents_eq]
    decide
  · rw [formMileageValueCents_eq]
    decide

lemma lookupKey_isSome_mem {α : Type} (l : List (ℕ × α)) (k : ℕ)
    (h : (ObjStore.lookupKey l k).isSome) : k ∈ l.map Prod.fst := by
  induction l with
  | nil => simp [ObjStore.lookupKey] at h
  | cons p t ih =>
    obtain ⟨k2, v2⟩ := p
    simp only [ObjStore.lookupKey] at h
    by_cases hk : k2 = k
    · simp [hk]
    · simp only [hk, if_false] at h
      simp only [List.map_cons, List.mem_cons]
      exact Or.inr (ih h)

lemma lookupKey_nextKey_of_WF {α : Type} (s : ObjStore α) (h : ObjStore.WF s) :
    ObjStore.lookupKey s.records s.nextKey = none := by
  cases hl : ObjStore.lookupKey s.records s.nextKey with
  | none => rfl
  | some v =>
    have hm : s.nextKey ∈ s.records.map Prod.fst := by
      apply lookupKey_isSome_mem
      rw [hl]
      rfl
    exact absurd (h s.nextKey hm) (lt_irrefl s.nextKey)

lemma mem_eraseKey {α : Type} (l : List (ℕ × α)) (k : ℕ) (p : ℕ × α)
    (hp : p ∈ ObjStore.eraseKey l k) : p ∈ l ∧ p.1 ≠ k := by
  unfold ObjStore.eraseKey at hp
  have := List.mem_filter.mp hp
  exact ⟨this.1, by simpa using this.2⟩

lemma mem_foldl_eraseKey {α : Type} (ks : List ℕ) (l : List (ℕ × α)) (p : ℕ × α)
    (hp : p ∈ ks.foldl (fun acc k => ObjStore.eraseKey acc k) l) :
    p ∈ l ∧ p.1 ∉ ks := by
  induction ks generalizing l with
  | nil => simpa using hp
  | cons k t ih =>
    simp only [List.foldl_cons] at hp
    obtain ⟨h1, h2⟩ := ih (ObjStore.eraseKey l k) hp
    obtain ⟨h3, h4⟩ := mem_eraseKey l k p h1
    refine ⟨h3, ?_⟩
    simp only [List.mem_cons, not_or]
    exact ⟨h4, h2⟩

lemma lookupKey_eraseKey_self {α : Type} (l : List (ℕ × α)) (k : ℕ) :
    ObjStore.lookupKey (ObjStore.eraseKey l k) k = none := by
  induction l with
  | nil => rfl
  | cons p t ih =>
    obtain ⟨k2, v2⟩ := p
    by_cases hk : k2 = k
    · simpa [ObjStore.eraseKey, List.filter_cons, hk] using ih
    · simpa [ObjStore.eraseKey, List.filter_cons, hk, ObjStore.lookupKey] using ih

/-- Claim C10: a missing-key lookup is not a failure at the public interface:
for every key with no record stored under it, `getTrip` and `getExpense`
resolve successfully with null rather than rejecting. -/
theorem C10_missing_key_lookup_resolves_null (db : LocalDB) (k : ℕ)
    (ht : ObjStore.lookupKey db.trips.records k = none)
    (he : ObjStore.lookupKey db.expenses.records k = none) :
    getTrip db k = Except.ok none ∧ getExpense db k = Except.ok none := by
  unfold getTrip getExpense
  rw [ht, he]
  exact ⟨rfl, rfl⟩

theorem C10_missing_key_lookup_resolves_null_witness :
    getTrip emptyDB 7 = Except.ok none ∧ getExpense emptyDB 7 = Except.ok none :=
  C10_missing_key_lookup_resolves_null emptyDB 7 rfl rfl

/-- Claim C9: when `updateTrip`'s remote call succeeds but no record with the
given identifier exists locally, the operation resolves successfully, raises
no error, performs no local write, and leaves the local store unchanged
(no create-on-update, no RecordNotFound on this path). -/
theorem C9_update_missing_local_noop (id : ℕ) (t : TripInput) (db : LocalDB)
    (h : ObjStore.lookupKey db.trips.records id = none) :
    (updateTrip true id t db).db = db ∧
    (updateTrip true id t db).result = Except.ok () ∧
    (updateTrip true id t db).events =
      [Ev.remoteCall "PUT" ("/api/trips/" ++ toString id)] := by
  unfold updateTrip
  rw [h]
  exact ⟨rfl, rfl, rfl⟩

theorem C9_update_missing_local_noop_witness :
    (updateTrip true 3 ⟨"x", none, none, none⟩ emptyDB).db = emptyDB ∧
    (updateTrip true 3 ⟨"x", none, none, none⟩ emptyDB).result = Except.ok () ∧
    (updateTrip true 3 ⟨"x", none, none, none⟩ emptyDB).events =
      [Ev.remoteCall "PUT" "/api/trips/3"] :=
  C9_update_missing_local_noop 3 ⟨"x", none, none, none⟩ emptyDB rfl

/-- Claim C7: when every remote request fails, `saveTrip` still completes,
returning the local auto-assigned identifier, and the trip is subsequently
retrievable via `getTrip` under that identifier. -/
theorem C7_saveTrip_local_fallback (now : ℤ) (t : TripInput) (db : LocalDB)
    (h : ObjStore.WF db.trips) :
    (saveTrip none now t db).result = Except.ok db.trips.nextKey ∧
    getTrip (saveTrip none now t db).db db.trips.nextKey =
      Except.ok (some (mkTripRec t db.trips.nextKey now)) := by
  have hnone := lookupKey_nextKey_of_WF db.trips h
  have hkey : ObjStore.hasKey db.trips.records db.trips.nextKey = false := by
    unfold ObjStore.hasKey
    rw [hnone]
    rfl
  simp only [saveTrip, ObjStore.addAuto, hkey, Bool.false_eq_true, if_false]
  refine ⟨by trivial, ?_⟩
  unfold getTrip
  rw [ObjStore.lookupKey_append_self db.trips.records db.trips.nextKey _ hnone]

theorem C7_saveTrip_local_fallback_witness :
    (saveTrip none 0 ⟨"t", none, none, none⟩ emptyDB).result =
      Except.ok emptyDB.trips.nextKey ∧
    getTrip (saveTrip none 0 ⟨"t", none, none, none⟩ emptyDB).db
      emptyDB.trips.nextKey =
      Except.ok (some (mkTripRec ⟨"t", none, none, none⟩ emptyDB.trips.nextKey 0)) :=
  C7_saveTrip_local_fallback 0 ⟨"t", none, none, none⟩ emptyDB (by decide)

/-- Claim C8: when a trip create succeeds remotely with assigned identifier
`resp.id` (e.g. 42), the local record is retrievable by that key, the server
identifier is returned, and no duplicate record exists under any other key —
every other key of the trips store, and the whole expenses store, are
unchanged. -/
theorem C8_remote_id_adoption (resp : RemoteTripResp) (now : ℤ) (t : TripInput)
    (db : LocalDB) (h : ObjStore.lookupKey db.trips.records resp.id = none) :
    (saveTrip (some resp) now t db).result = Except.ok resp.id ∧
    getTrip (saveTrip (some resp) now t db).db resp.id =
      Except.ok (some (mkTripRec t resp.id resp.createdAt)) ∧
    (∀ k, k ≠ resp.id →
      ObjStore.lookupKey (saveTrip (some resp) now t db).db.trips.records k =
        ObjStore.lookupKey db.trips.records k) ∧
    (saveTrip (some resp) now t db).db.expenses = db.expenses := by
  have hkey : ObjStore.hasKey db.trips.records resp.id = false := by
    unfold ObjStore.hasKey
    rw [h]
    rfl
  simp only [saveTrip, ObjStore.addWith, hkey, Bool.false_eq_true, if_false]
  refine ⟨by trivial, ?_, ?_, by trivial⟩
  · unfold getTrip
    rw [ObjStore.lookupKey_append_self db.trips.records resp.id _ h]
  · intro k hk
    exact ObjStore.lookupKey_append_ne db.trips.records k resp.id _
      (fun he => hk he.symm)

theorem C8_remote_id_adoption_witness :
    (saveTrip (some ⟨42, 5⟩) 0 ⟨"t", none, none, none⟩ emptyDB).result =
      Except.ok 42 ∧
    getTrip (saveTrip (some ⟨42, 5⟩) 0 ⟨"t", none, none, none⟩ emptyDB).db 42 =
      Except.ok (some (mkTripRec ⟨"t", none, none, none⟩ 42 5)) ∧
    (∀ k, k ≠ 42 →
      ObjStore.lookupKey
        (saveTrip (some ⟨42, 5⟩) 0 ⟨"t", none, none, none⟩ emptyDB).db.trips.records k =
        ObjStore.lookupKey emptyDB.trips.records k) ∧
    (saveTrip (some ⟨42, 5⟩) 0 ⟨"t", none, none, none⟩ emptyDB).db.expenses =
      emptyDB.expenses :=
  C8_remote_id_adoption ⟨42, 5⟩ 0 ⟨"t", none, none, none⟩ emptyDB rfl

/-- Claim C6: for every trip identifier `id` owning any number of local
expenses, after `deleteTrip` completes no expense in the local store
references `id` and the trip record itself is gone; the expense deletions and
the trip deletion are issued inside the single readwrite transaction of
`deleteLocalTrip`, and they run whatever the remote outcome was. -/
theorem C6_cascade_delete (remoteOk : Bool) (id : ℕ) (db : LocalDB) :
    countTripExpenses (deleteTrip remoteOk id db) id = 0 ∧
    getTrip (deleteTrip remoteOk id db) id = Except.ok none := by
  have hdel : deleteTrip remoteOk id db = deleteLocalTrip id db := by
    unfold deleteTrip
    cases remoteOk <;> rfl
  rw [hdel]
  constructor
  · unfold countTripExpenses deleteLocalTrip
    simp only [List.length_eq_zero]
    rw [List.filter_eq_nil_iff]
    intro p hp
    obtain ⟨hmem, hnotin⟩ := mem_foldl_eraseKey _ _ p hp
    simp only [decide_eq_true_eq]
    intro htrip
    apply hnotin
    unfold matchingExpenseKeys
    apply List.mem_map.mpr
    refine ⟨p, ?_, rfl⟩
    apply List.mem_filter.mpr
    exact ⟨hmem, by simpa using htrip⟩
  · unfold getTrip deleteLocalTrip
    rw [lookupKey_eraseKey_self]

lemma syncTripStep_lookup_ne (now : ℤ) (st : ObjStore TripRec) (t : RemoteTrip)
    (k : ℕ) (hk : k ≠ t.id) :
    ObjStore.lookupKey (syncTripStep now st t).records k =
      ObjStore.lookupKey st.records k := by
  unfold syncTripStep
  by_cases h0 : t.id = 0
  · rw [if_pos h0]
  · rw [if_neg h0]
    cases hl : ObjStore.lookupKey st.records t.id with
    | some v =>
        show ObjStore.lookupKey (ObjStore.put st t.id (remoteTripToLocal now t)).records k = _
        exact ObjStore.lookupKey_putList_ne _ _ _ _ (Ne.symm hk)
    | none =>
        have hkey : ObjStore.hasKey st.records t.id = false := by
          unfold ObjStore.hasKey
          rw [hl]
          rfl
        simp only [ObjStore.addWith, hkey, Bool.false_eq_true, if_false]
        exact ObjStore.lookupKey_append_ne _ _ _ _ (Ne.symm hk)

lemma syncTripStep_lookup_isSome (now : ℤ) (st : ObjStore TripRec)
    (t : RemoteTrip) (k : ℕ)
    (h : (ObjStore.lookupKey st.records k).isSome) :
    (ObjStore.lookupKey (syncTripStep now st t).records k).isSome := by
  by_cases hk : k = t.id
  · unfold syncTripStep
    by_cases h0 : t.id = 0
    · rw [if_pos h0]
      exact h
    · rw [if_neg h0]
      cases hl : ObjStore.lookupKey st.records t.id with
      | some v =>
          show (ObjStore.lookupKey
            (ObjStore.put st t.id (remoteTripToLocal now t)).records k).isSome
          exact ObjStore.lookupKey_isSome_putList _ _ _ _ h
      | none =>
          rw [hk, hl] at h
          simp at h
  · rw [syncTripStep_lookup_ne now st t k hk]
    exact h

lemma foldl_syncTripStep_lookup_notin (now : ℤ) (ts : List RemoteTrip)
    (st : ObjStore TripRec) (k : ℕ) (hk : k ∉ ts.map RemoteTrip.id) :
    ObjStore.lookupKey (ts.foldl (syncTripStep now) st).records k =
      ObjStore.lookupKey st.records k := by
  induction ts generalizing st with
  | nil => rfl
  | cons t rest ih =>
    simp only [List.map_cons, List.mem_cons, not_or] at hk
    simp only [List.foldl_cons]
    rw [ih (syncTripStep now st t) hk.2, syncTripStep_lookup_ne now st t k hk.1]

lemma foldl_syncTripStep_lookup_isSome (now : ℤ) (ts : List RemoteTrip)
    (st : ObjStore TripRec) (k : ℕ)
    (h : (ObjStore.lookupKey st.records k).isSome) :
    (ObjStore.lookupKey (ts.foldl (syncTripStep now) st).records k).isSome := by
  induction ts generalizing st with
  | nil => exact h
  | cons t rest ih =>
    simp only [List.foldl_cons]
    exact ih (syncTripStep now st t) (syncTripStep_lookup_isSome now st t k h)

/-- Claim C5: light reconciliation is additive: every local trip whose key is
not among the fetched remote identifiers survives `syncTripsFromServer`
present and unchanged, and the pass never deletes any local trip record. -/
theorem C5_light_reconciliation_nondestructive (trips : List RemoteTrip)
    (now : ℤ) (db : LocalDB) :
    (∀ k v, ObjStore.lookupKey db.trips.records k = some v →
        k ∉ trips.map RemoteTrip.id →
        ObjStore.lookupKey
          (syncTripsFromServer (some trips) now db).2.trips.records k = some v) ∧
    ∀ k, (ObjStore.lookupKey db.trips.records k).isSome →
      (ObjStore.lookupKey
        (syncTripsFromServer (some trips) now db).2.trips.records k).isSome := by
  constructor
  · intro k v hv hk
    show ObjStore.lookupKey (trips.foldl (syncTripStep now) db.trips).records k = some v
    rw [foldl_syncTripStep_lookup_notin now trips db.trips k hk]
    exact hv
  · intro k h
    show (ObjStore.lookupKey (trips.foldl (syncTripStep now) db.trips).records k).isSome
    exact foldl_syncTripStep_lookup_isSome now trips db.trips k h

theorem C5_light_reconciliation_nondestructive_witness :
    ObjStore.lookupKey
      (syncTripsFromServer (some [⟨7, "r", none, none, none, some 1⟩]) 0
        ⟨⟨[(5, ⟨5, "loc", none, none, none, 0⟩)], 6⟩, ObjStore.empty⟩).2.trips.records 5 =
      some ⟨5, "loc", none, none, none, 0⟩ ∧
    (ObjStore.lookupKey
      (syncTripsFromServer (some [⟨7, "r", none, none, none, some 1⟩]) 0
        ⟨⟨[(5, ⟨5, "loc", none, none, none, 0⟩)], 6⟩, ObjStore.empty⟩).2.trips.records 5).isSome :=
  ⟨(C5_light_reconciliation_nondestructive [⟨7, "r", none, none, none, some 1⟩] 0
      ⟨⟨[(5, ⟨5, "loc", none, none, none, 0⟩)], 6⟩, ObjStore.empty⟩).1 5
      ⟨5, "loc", none, none, none, 0⟩ rfl (by decide),
   (C5_light_reconciliation_nondestructive [⟨7, "r", none, none, none, some 1⟩] 0
      ⟨⟨[(5, ⟨5, "loc", none, none, none, 0⟩)], 6⟩, ObjStore.empty⟩).2 5 (by rfl)⟩

/-- Claim C2: a trip save (create or update) whose end date is earlier than
its start date is rejected by the form's constraint validation before the
handler runs: the submit pipeline performs no local or remote side effect and
the local store is unchanged. -/
theorem C2_end_before_start_rejected (editing : Option ℕ)
    (rc : Option RemoteTripResp) (ru : Bool) (cpf : Option String) (now : ℤ)
    (f : TripForm) (db : LocalDB) (s e : ℤ)
    (hs : f.startDate = some s) (he : f.endDate = some e) (hlt : e < s) :
    tripModalSubmit editing rc ru cpf now f db = (db, [], SubmitOutcome.blocked) := by
  have hb : tripFormBlocked f = true := by
    unfold tripFormBlocked
    rw [hs, he]
    simp [hlt]
  unfold tripModalSubmit
  rw [hb]
  rfl

theorem C2_end_before_start_rejected_witness :
    tripModalSubmit none none false none 0 ⟨"Trip", some 5, some 3⟩ emptyDB =
      (emptyDB, [], SubmitOutcome.blocked) :=
  C2_end_before_start_rejected none none false none 0 ⟨"Trip", some 5, some 3⟩
    emptyDB 5 3 rfl rfl (by decide)

/-- Claim C3 counterexample: at a concrete expense create against an empty
local store, with the remote create succeeding and assigning identifier 42,
the first attempted operation is the local store add — not the remote call —
the value returned is the local auto key 1 rather than the remote 42, and no
record is retrievable under the remote identifier. -/
theorem C3_expense_create_not_remote_first :
    (createExpenseFlow (some 42) 0 sampleExpenseInput emptyDB).events.head? =
      some (Ev.localAdd "expenses") ∧
    (createExpenseFlow (some 42) 0 sampleExpenseInput emptyDB).result =
      Except.ok 1 ∧
    (createExpenseFlow (some 42) 0 sampleExpenseInput emptyDB).result ≠
      Except.ok 42 ∧
    getExpense (createExpenseFlow (some 42) 0 sampleExpenseInput emptyDB).db 42 =
      Except.ok none := by
  refine ⟨rfl, rfl, ?_, rfl⟩
  intro h
  rw [show (createExpenseFlow (some 42) 0 sampleExpenseInput emptyDB).result =
    Except.ok 1 from rfl] at h
  simp at h

/-- Claim C3 (amended): for every expense create, the local store write is
attempted first and its auto-assigned identifier is what the flow returns;
the remote create is attempted only afterwards, and the remote-assigned
identifier is never adopted — the stored record keeps the local identifier
whatever the remote outcome. -/
theorem C3_amended_expense_create_local_first (remoteAssigned : Option ℕ)
    (now : ℤ) (e : ExpenseInput) (db : LocalDB) (h : ObjStore.WF db.expenses) :
    (createExpenseFlow remoteAssigned now e db).events =
      [Ev.localAdd "expenses",
       Ev.remoteCall "POST" ("/api/trips/" ++ toString e.tripId ++ "/expenses")] ∧
    (createExpenseFlow remoteAssigned now e db).result =
      Except.ok db.expenses.nextKey ∧
    getExpense (createExpenseFlow remoteAssigned now e db).db db.expenses.nextKey =
      Except.ok (some (mkExpenseRec e now db.expenses.nextKey)) := by
  have hnone := lookupKey_nextKey_of_WF db.expenses h
  have hkey : ObjStore.hasKey db.expenses.records db.expenses.nextKey = false := by
    unfold ObjStore.hasKey
    rw [hnone]
    rfl
  simp only [createExpenseFlow, saveExpense, ObjStore.addAuto, hkey,
    Bool.false_eq_true, if_false]
  refine ⟨by trivial, by trivial, ?_⟩
  unfold getExpense
  rw [ObjStore.lookupKey_append_self db.expenses.records db.expenses.nextKey _ hnone]

theorem C3_amended_expense_create_local_first_witness :
    ObjStore.WF emptyDB.expenses ∧
    (createExpenseFlow (some 42) 0 sampleExpenseInput emptyDB).events =
      [Ev.localAdd "expenses",
       Ev.remoteCall "POST" ("/api/trips/" ++ toString sampleExpenseInput.tripId ++ "/expenses")] ∧
    (createExpenseFlow (some 42) 0 sampleExpenseInput emptyDB).result =
      Except.ok emptyDB.expenses.nextKey ∧
    getExpense (createExpenseFlow (some 42) 0 sampleExpenseInput emptyDB).db
      emptyDB.expenses.nextKey =
      Except.ok (some (mkExpenseRec sampleExpenseInput 0 emptyDB.expenses.nextKey)) :=
  ⟨by decide, C3_amended_expense_create_local_first (some 42) 0
    sampleExpenseInput emptyDB (by decide)⟩

lemma remoteTripToLocal_now_independent (n1 n2 : ℤ) (t : RemoteTrip)
    (h : t.createdAt.isSome) :
    remoteTripToLocal n1 t = remoteTripToLocal n2 t := by
  obtain ⟨c, hc⟩ := Option.isSome_iff_exists.mp h
  unfold remoteTripToLocal
  rw [hc]
  rfl

lemma remoteExpenseToLocal_now_independent (n1 n2 : ℤ) (e : RemoteExpense)
    (h : e.createdAt.isSome) :
    remoteExpenseToLocal n1 e = remoteExpenseToLocal n2 e := by
  obtain ⟨c, hc⟩ := Option.isSome_iff_exists.mp h
  unfold remoteExpenseToLocal
  rw [hc]
  rfl

lemma insertExpenseStep_now_independent (n1 n2 : ℤ) (st : ObjStore ExpenseRec)
    (e : RemoteExpense) (h : e.createdAt.isSome) :
    insertExpenseStep n1 st e = insertExpenseStep n2 st e := by
  unfold insertExpenseStep
  rw [remoteExpenseToLocal_now_independent n1 n2 e h]

lemma insertRemoteExpenses_now_independent (n1 n2 : ℤ)
    (l : List RemoteExpense) (st : ObjStore ExpenseRec)
    (h : ∀ e ∈ l, e.createdAt.isSome) :
    insertRemoteExpenses n1 st l = insertRemoteExpenses n2 st l := by
  induction l generalizing st with
  | nil => rfl
  | cons e rest ih =>
    unfold insertRemoteExpenses at ih ⊢
    simp only [List.foldl_cons]
    rw [insertExpenseStep_now_independent n1 n2 st e (h e (by simp))]
    exact ih (insertExpenseStep n2 st e) (fun e2 he2 => h e2 (by simp [he2]))

lemma processServerTrip_now_independent (r : RemoteState) (n1 n2 : ℤ)
    (db : LocalDB) (t : RemoteTrip) (hc : t.createdAt.isSome)
    (he : ∀ e ∈ r.expensesOf t.id, e.createdAt.isSome) :
    processServerTrip r n1 db t = processServerTrip r n2 db t := by
  unfold processServerTrip
  rw [remoteTripToLocal_now_independent n1 n2 t hc]
  cases ObjStore.addWith db.trips t.id (remoteTripToLocal n2 t) with
  | error er => rfl
  | ok store2 =>
    by_cases hq : r.expensesOk t.id = true
    · simp only [hq, if_true]
      rw [insertRemoteExpenses_now_independent n1 n2 (r.expensesOf t.id) _ he]
    · simp only [if_neg hq]

lemma foldl_processServerTrip_now_independent (r : RemoteState) (n1 n2 : ℤ)
    (ts : List RemoteTrip) (db : LocalDB)
    (h : ∀ t ∈ ts, t.createdAt.isSome ∧
      ∀ e ∈ r.expensesOf t.id, e.createdAt.isSome) :
    ts.foldl (processServerTrip r n1) db = ts.foldl (processServerTrip r n2) db := by
  induction ts generalizing db with
  | nil => rfl
  | cons t rest ih =>
    simp only [List.foldl_cons]
    have ht := h t (by simp)
    rw [processServerTrip_now_independent r n1 n2 db t ht.1 ht.2]
    exact ih (processServerTrip r n2 db t) (fun t2 ht2 => h t2 (by simp [ht2]))

/-- Claim C4: running `verifyAndFixDatabase` twice in a row against an
unchanged remote data set (every remote record carrying its server-assigned
creation timestamp) produces exactly the same local trip and expense stores
both times — the rebuilt state is a function of the remote data alone. -/
theorem C4_full_reconciliation_idempotent (r : RemoteState) (n1 n2 : ℤ)
    (db : LocalDB)
    (h : ∀ t ∈ r.trips, t.createdAt.isSome ∧
      ∀ e ∈ r.expensesOf t.id, e.createdAt.isSome) :
    (verifyAndFixDatabase r n2 (verifyAndFixDatabase r n1 db).2).2 =
      (verifyAndFixDatabase r n1 db).2 := by
  unfold verifyAndFixDatabase
  by_cases hok : r.tripsOk = true
  · simp only [hok, if_true]
    exact foldl_processServerTrip_now_independent r n2 n1 r.trips
      clearLocalDatabase (fun t ht => h t ht)
  · simp only [if_neg hok]

theorem C4_full_reconciliation_idempotent_witness :
    (∀ t ∈ sampleRemoteState.trips, t.createdAt.isSome ∧
      ∀ e ∈ sampleRemoteState.expensesOf t.id, e.createdAt.isSome) ∧
    (verifyAndFixDatabase sampleRemoteState 9
      (verifyAndFixDatabase sampleRemoteState 4 emptyDB).2).2 =
      (verifyAndFixDatabase sampleRemoteState 4 emptyDB).2 :=
  ⟨by decide, C4_full_reconciliation_idempotent sampleRemoteState 4 9 emptyDB
    (by decide)⟩

end TaskTrackerPro
